import Mathlib

/-!
Verification development for the communication.bs.js fetch pipeline.

Shallow embedding of the library's core modules:
  - src/src/apiFetchUtils.ts / src/src/apiFetch.ts : error normalization,
    apiFetch (fetchOne) decoding, streaming generators
  - src/src/fetcherFactory.ts : retry loop, header/auth merging, URL
    resolution with query parameters, request deduplication registry
  - src/src/utils/hash.ts : FNV-1a string hash, FormData fingerprint hash

JavaScript numbers under bitwise operators are modelled as Nat reduced
mod 2^32 (JS bitwise ops coerce to 32-bit integers; the signed/unsigned
distinction is irrelevant modulo 2^32 and the final coercion is the
unsigned one). Promises are modelled by explicit ids / explicit values;
an async function called without await shows up as a promise value.
-/

namespace CommBS

/-- Model of the ApiError class (src/src/models/api_error.ts): tagged error
value with errorId, HTTP status and optional debugMessage. -/
structure ApiError where
  errorId : String
  status : Nat
  debugMessage : Option String
deriving DecidableEq, Repr

/-- Model of a JavaScript value as far as the error-normalization helper
inspects it: instance-of-ApiError, object with optional name / string
cause properties, Error instances (name plus message), plain strings,
promises (an async helper invoked without await), and other primitives. -/
inductive JsValue where
  | apiErrorVal (e : ApiError)
  | errorVal (name : String) (cause : Option String) (message : String)
  | objVal (name : Option String) (cause : Option String)
  | strVal (s : String)
  | numVal (n : Int)
  | nullVal
  | undefinedVal
  | promiseVal (resolvesTo : ApiError)
deriving DecidableEq, Repr

namespace JsValue

/-- instanceof ApiError check. -/
def isApiErrorInstance : JsValue → Bool
  | .apiErrorVal _ => true
  | _ => false

/-- Mirrors: error && typeof error === "object" && "name" in error &&
error.name === "AbortError". ApiError instances are Error instances whose
name is "Error"-style, never "AbortError" (the class never sets name). -/
def hasAbortName : JsValue → Bool
  | .errorVal n _ _ => n == "AbortError"
  | .objVal (some n) _ => n == "AbortError"
  | _ => false

/-- Mirrors: error && typeof error === "object" && "cause" in error &&
error.cause === "aborted". -/
def hasAbortCause : JsValue → Bool
  | .errorVal _ (some c) _ => c == "aborted"
  | .objVal _ (some c) => c == "aborted"
  | _ => false

/-- JavaScript String(value) coercion on the modelled values. -/
def jsToString : JsValue → String
  | .apiErrorVal e => "API Error: " ++ e.errorId ++ " (status: " ++ toString e.status ++ ")"
  | .errorVal n _ m => n ++ ": " ++ m
  | .objVal _ _ => "[object Object]"
  | .strVal s => s
  | .numVal n => toString n
  | .nullVal => "null"
  | .undefinedVal => "undefined"
  | .promiseVal _ => "[object Promise]"

/-- error instanceof Error ? error.message : String(error). ApiError extends
Error, its message is set by the constructor super call. -/
def messageOf : JsValue → String
  | .apiErrorVal e => "API Error: " ++ e.errorId ++ " (status: " ++ toString e.status ++ ")"
  | .errorVal _ _ m => m
  | v => v.jsToString

end JsValue

/-- Mirrors: typeof error === "string" && error === "aborted". -/
def isAbortedString : JsValue → Bool
  | .strVal s => s == "aborted"
  | _ => false

/-- Shallow embedding of extractApiErrorFromError
(src/src/apiFetchUtils.ts lines 27-56): normalizes any thrown value to an
ApiError. The first source guard is error instanceof ApiError. -/
def extractApiErrorFromError : JsValue → ApiError
  | .apiErrorVal e => e
  | error =>
    if error.hasAbortName then
      ⟨"request_aborted", 499, none⟩
    else if error.hasAbortCause then
      ⟨"request_aborted", 499, none⟩
    else if isAbortedString error then
      ⟨"request_aborted", 499, none⟩
    else
      ⟨"fetch_failed", 500, some error.messageOf⟩

/-! ### src/src/utils/hash.ts -/

/-- One iteration of the hashString loop (src/src/utils/hash.ts lines
15-23): hash ^= charCode, then hash += (hash<<1)+(hash<<4)+(hash<<7)+
(hash<<8)+(hash<<24). JS bitwise ops work on 32-bit patterns; all
arithmetic here agrees with Nat arithmetic mod 2^32. -/
def hashStep (hash c : Nat) : Nat :=
  let h := (hash ^^^ c) % 4294967296
  (h + ((h <<< 1) % 4294967296) + ((h <<< 4) % 4294967296)
     + ((h <<< 7) % 4294967296) + ((h <<< 8) % 4294967296)
     + ((h <<< 24) % 4294967296)) % 4294967296

/-- Nat to lowercase hexadecimal, as produced by JS Number.toString(16)
for a nonnegative 32-bit value. -/
def toHex (n : Nat) : String :=
  String.mk (Nat.toDigits 16 n)

/-- Shallow embedding of hashString (src/src/utils/hash.ts lines 12-26):
FNV-1a over the UTF-16 code units of the input (modelled as the list of
character codes), rendered as hex. -/
def hashString (codes : List Nat) : String :=
  toHex (codes.foldl hashStep 2166136261)

/-- A FormData entry value: plain string, or a file whose name, size and
type are visible (content is carried but never serialized). -/
inductive FormValue where
  | str (s : String)
  | file (name : String) (size : Nat) (type : String) (content : List Nat)
deriving DecidableEq, Repr

/-- Serialization of one FormData entry (src/src/utils/hash.ts lines
47-61): files contribute key:file:name:size:type, other values key:value. -/
def serializeEntry : String × FormValue → String
  | (key, .str s) => key ++ ":" ++ s
  | (key, .file n sz t _) => key ++ ":file:" ++ n ++ ":" ++ toString sz ++ ":" ++ t

/-- The code-unit list of a string (charCodeAt sequence, BMP range). -/
def strCodes (s : String) : List Nat := s.data.map Char.toNat

/-- Shallow embedding of hashFormData (src/src/utils/hash.ts lines 44-64):
serialize every entry, sort the serialized strings, join with a bar and
hash the result. -/
def hashFormData (entries : List (String × FormValue)) : String :=
  hashString (strCodes (String.intercalate "|"
    (List.insertionSort (fun a b => a ≤ b) (entries.map serializeEntry))))

/-! ### JSON and the zod ApiErrorResponse schema -/

/-- Minimal JSON value model (result of response.json() / JSON.parse). -/
inductive Json where
  | null
  | bool (b : Bool)
  | num (n : Int)
  | str (s : String)
  | arr (xs : List Json)
  | obj (fields : List (String × Json))

/-- Field lookup on a JSON object (JS object keys are unique). -/
def getField (fields : List (String × Json)) (k : String) : Option Json :=
  (fields.find? (fun p => p.1 == k)).map (fun p => p.2)

/-- Parsed output of the ApiErrorResponse zod schema. -/
structure ApiErrorResponseData where
  errorId : String
  debugMessage : Option String
deriving DecidableEq, Repr

/-- Minimal JSON.stringify escaping (quote and backslash). -/
def jsonEscape (s : String) : String :=
  String.join (s.data.map (fun c =>
    if c = '"' then "\\\"" else if c = '\\' then "\\\\" else String.mk [c]))

/-- JSON.stringify of the zod parse output (keys in schema order: errorId
then debugMessage; an absent optional key is omitted). -/
def stringifyData (d : ApiErrorResponseData) : String :=
  "\x7b\"errorId\":\"" ++ jsonEscape d.errorId ++ "\"" ++
    (match d.debugMessage with
     | none => ""
     | some m => ",\"debugMessage\":\"" ++ jsonEscape m ++ "\"") ++ "\x7d"

/-- Shallow embedding of ApiErrorResponse.parse with the schema of
src/src/models/api_error_response.ts lines 3-6: an object whose errorId is
an optional string defaulting to "unexpected_error" and whose debugMessage
is an optional string. Any non-object, or a present field of the wrong
type, makes parse throw (modelled as Except.error). -/
def parseApiErrorResponse : Json → Except Unit ApiErrorResponseData
  | .obj fields =>
    match getField fields "errorId", getField fields "debugMessage" with
    | none, none => .ok ⟨"unexpected_error", none⟩
    | none, some (.str m) => .ok ⟨"unexpected_error", some m⟩
    | some (.str e), none => .ok ⟨e, none⟩
    | some (.str e), some (.str m) => .ok ⟨e, some m⟩
    | _, _ => .error ()
  | _ => .error ()

/-- Model of a settled fetch Response as the API client inspects it:
ok flag, status, the outcome of awaiting response.json() (Except.error
carries the rejection reason), and whether response.body is non-null. -/
structure Response where
  ok : Bool
  status : Nat
  jsonBody : Except JsValue Json
  bodyPresent : Bool

/-- Shallow embedding of extractApiError (src/src/apiFetch.ts lines
21-33): parse the JSON body against ApiErrorResponse; on success build
ApiError(errorId, status, debugMessage ?? JSON.stringify(data)); on any
throw (json() rejection or schema violation) fall back to
ApiError("unexpected_error", status). -/
def extractApiError (resp : Response) : ApiError :=
  match resp.jsonBody with
  | .error _ => ⟨"unexpected_error", resp.status, none⟩
  | .ok j =>
    match parseApiErrorResponse j with
    | .error _ => ⟨"unexpected_error", resp.status, none⟩
    | .ok d => ⟨d.errorId, resp.status, some (d.debugMessage.getD (stringifyData d))⟩

/-- Outcome of the underlying _fetch call: a settled response, or a
rejection carrying the thrown value. -/
inductive FetchOutcome where
  | resp (r : Response)
  | reject (e : JsValue)

/-- A schema passed in the options: safeParse modelled as a function from
the parsed JSON to either a validated value or a failure message
(parsed.error.message). -/
def Schema := Json → Except String Json

/-- Result union ApiResponse: success value or ApiError returned as a
value. -/
def ApiResponse := Except ApiError Json

/-- Shallow embedding of apiFetch (fetchOne, src/src/apiFetch.ts lines
100-132), given the settled outcome of the underlying fetch: on ok parse
JSON and optionally schema-validate; on non-ok extract the error from the
body; any thrown value is normalized by the catch. -/
def apiFetch (outcome : FetchOutcome) (schema : Option Schema) : ApiResponse :=
  match outcome with
  | .reject e => .error (extractApiErrorFromError e)
  | .resp r =>
    if r.ok then
      match r.jsonBody with
      | .error e => .error (extractApiErrorFromError e)
      | .ok data =>
        match schema with
        | some sch =>
          match sch data with
          | .error msg =>
            .error ⟨"schema_validation_failed", 500,
              some ("Response validation failed: " ++ msg)⟩
          | .ok parsed => .ok parsed
        | none => .ok data
    else
      .error (extractApiError r)

/-! ### The streaming generators (apiFetchTextMany / apiFetchMany) -/

/-- A value thrown out of the async generator to the consumer: either an
actual ApiError instance, or a Promise object (an async helper whose
result was thrown without await) that will later resolve to an ApiError. -/
inductive ThrownVal where
  | apiErr (e : ApiError)
  | promiseOf (e : ApiError)
deriving DecidableEq, Repr

/-- Observable behaviour of one apiFetchTextMany iteration run. -/
inductive TextManyResult where
  | yields (chunks : List String)
  | throws (v : ThrownVal)
deriving DecidableEq, Repr

/-- Shallow embedding of apiFetchTextMany (src/src/apiFetch.ts lines
151-184, identical body in src/src/apiFetchFactory.ts lines 70-103).
The error paths transcribe the source faithfully:
  - non-ok response: `throw extractApiError(response)` throws the PROMISE
    returned by the async helper (no await in the source), which the catch
    then feeds to extractApiErrorFormError — again async, again thrown
    without await, so the consumer receives a promise;
  - null body: a real ApiError is thrown, but the catch rethrows
    extractApiErrorFormError(it) un-awaited, a promise resolving to it;
  - rejected fetch: the catch rethrows a promise likewise.
The happy path yields the decoded chunks and terminates. -/
def apiFetchTextMany (outcome : FetchOutcome) (chunks : List String) : TextManyResult :=
  match outcome with
  | .reject e => .throws (.promiseOf (extractApiErrorFromError e))
  | .resp r =>
    if r.ok then
      if r.bodyPresent then
        .yields chunks
      else
        .throws (.promiseOf (extractApiErrorFromError
          (.apiErrorVal ⟨"unexpected_error", 500, some "Response body is null"⟩)))
    else
      .throws (.promiseOf (extractApiErrorFromError (.promiseVal (extractApiError r))))

/-! ### fetcherFactory: retry loop (executeWithRetry, lines 271-300) -/

/-- Retry-relevant slice of FetcherBuilderOptions: retries, retryDelay
(0 models both an explicit 0 and JS undefined — both falsy under the
source condition retryDelay || 1000) and the optional retryOn list. -/
structure RetryConfig where
  retries : Nat
  retryDelay : Nat
  retryOn : Option (List Nat)
deriving DecidableEq, Repr

/-- The settled outcome of one underlying fetch invocation; the tag
distinguishes distinct responses or errors with equal status. -/
inductive Outcome where
  | resolve (status : Nat) (tag : Nat)
  | reject (tag : Nat)
deriving DecidableEq, Repr

/-- The source retry predicate on a resolved response:
options.retryOn && options.retryOn.includes(response.status). -/
def retryOnMatches (cfg : RetryConfig) (status : Nat) : Bool :=
  match cfg.retryOn with
  | some l => l.contains status
  | none => false

/-- An outcome the retry loop treats as retry-worthy (rejections always,
resolutions only when their status is listed in retryOn). -/
def retryWorthy (cfg : RetryConfig) : Outcome → Bool
  | .resolve s _ => retryOnMatches cfg s
  | .reject _ => true

/-- The delay the source actually schedules: options.retryDelay || 1000. -/
def effectiveDelay (cfg : RetryConfig) : Nat :=
  if cfg.retryDelay = 0 then 1000 else cfg.retryDelay

/-- Aggregate observable behaviour of the retry loop: final settled
outcome (returned response or rethrown error), number of fetch
invocations, and the scheduled delays in order. -/
structure RunResult where
  result : Outcome
  calls : Nat
  delays : List Nat
deriving DecidableEq, Repr

/-- Shallow embedding of executeWithRetry (src/src/fetcherFactory.ts
lines 271-300): attempt idx yields outcomes idx; on a resolved response
retry only while retriesLeft > 0 and retryOn lists the status; on a
rejection retry unconditionally while retriesLeft > 0; each retry waits
retryDelay || 1000 first. -/
def executeWithRetry (cfg : RetryConfig) (outcomes : Nat → Outcome) :
    Nat → Nat → RunResult
  | idx, 0 => ⟨outcomes idx, 1, []⟩
  | idx, Nat.succ r =>
    match outcomes idx with
    | .resolve status tag =>
      if retryOnMatches cfg status then
        let rest := executeWithRetry cfg outcomes (idx + 1) r
        ⟨rest.result, rest.calls + 1, effectiveDelay cfg :: rest.delays⟩
      else
        ⟨.resolve status tag, 1, []⟩
    | .reject _ =>
      let rest := executeWithRetry cfg outcomes (idx + 1) r
      ⟨rest.result, rest.calls + 1, effectiveDelay cfg :: rest.delays⟩

/-- Entry point as used by build (src/src/fetcherFactory.ts lines
449-467): options.retries ? executeWithRetry(fetchFn, options.retries)
: fetchFn() — a falsy retries count means a single plain attempt. -/
def runFetchAttempts (cfg : RetryConfig) (outcomes : Nat → Outcome) : RunResult :=
  if cfg.retries = 0 then ⟨outcomes 0, 1, []⟩
  else executeWithRetry cfg outcomes 0 cfg.retries

/-! ### fetcherFactory: header and auth merging (build, lines 331-359) -/

/-- Auth slice of the builder options (types/auth.ts): a type plus the
optional token / username / password fields setAuth stores. -/
inductive AuthKind where
  | bearer
  | basic
deriving DecidableEq, Repr

structure AuthConfig where
  type : AuthKind
  token : Option String
  username : Option String
  password : Option String
deriving DecidableEq, Repr

/-- Object-spread overriding: apply the entries of an object literal in
order on top of a base header map (later assignment to the same key
wins). -/
def applyHeaders (base : String → Option String) :
    List (String × String) → String → Option String
  | [], k => base k
  | kv :: rest, k =>
    applyHeaders (fun q => if q = kv.1 then some kv.2 else base q) rest k

/-- Single-key assignment on a header map. -/
def setHeader (h : String → Option String) (key value : String) :
    String → Option String :=
  fun k => if k = key then some value else h k

/-- Standard base64 alphabet character. -/
def base64Char (n : Nat) : Char :=
  if n < 26 then Char.ofNat (65 + n)
  else if n < 52 then Char.ofNat (97 + (n - 26))
  else if n < 62 then Char.ofNat (48 + (n - 52))
  else if n = 62 then '+' else '/'

/-- btoa over latin1 code units: groups of three bytes become four base64
characters, with = padding. -/
def base64Encode (bytes : List Nat) : String :=
  match bytes with
  | [] => ""
  | [a] =>
    String.mk [base64Char (a / 4), base64Char ((a % 4) * 16)] ++ "=="
  | [a, b] =>
    String.mk [base64Char (a / 4), base64Char ((a % 4) * 16 + b / 16),
      base64Char ((b % 16) * 4)] ++ "="
  | a :: b :: c :: rest =>
    String.mk [base64Char (a / 4), base64Char ((a % 4) * 16 + b / 16),
      base64Char ((b % 16) * 4 + c / 64), base64Char (c % 64)]
      ++ base64Encode rest

def btoa (s : String) : String := base64Encode (strCodes s)

/-- Whether the auth config actually produces an Authorization header
(source guards: bearer needs a token, basic needs both username and
password). -/
def authEffective : Option AuthConfig → Bool
  | some ⟨.bearer, some _, _, _⟩ => true
  | some ⟨.basic, _, some _, some _⟩ => true
  | _ => false

/-- The Authorization value the source assigns when authEffective. -/
def authHeaderValue : Option AuthConfig → Option String
  | some ⟨.bearer, some tok, _, _⟩ => some ("Bearer " ++ tok)
  | some ⟨.basic, _, some u, some p⟩ => some ("Basic " ++ btoa (u ++ ":" ++ p))
  | _ => none

/-- Shallow embedding of the header construction in build
(src/src/fetcherFactory.ts lines 331-359): start from the default
Content-Type, spread config headers, spread call-level headers, then
assign Authorization from auth when its guards hold, then delete
Content-Type when the body is FormData. -/
def buildHeaders (configHeaders callHeaders : List (String × String))
    (auth : Option AuthConfig) (isFormData : Bool) : String → Option String :=
  let h0 : String → Option String :=
    fun k => if k = "Content-Type" then some "application/json" else none
  let h1 := applyHeaders h0 (configHeaders ++ callHeaders)
  let h2 :=
    match auth with
    | some a =>
      match a.type, a.token, a.username, a.password with
      | .bearer, some tok, _, _ => setHeader h1 "Authorization" ("Bearer " ++ tok)
      | .basic, _, some u, some p =>
        setHeader h1 "Authorization" ("Basic " ++ btoa (u ++ ":" ++ p))
      | _, _, _, _ => h1
    | none => h1
  if isFormData then (fun k => if k = "Content-Type" then none else h2 k) else h2

/-! ### fetcherFactory: URL resolution (build, lines 315-329) -/

/-- Structured view of a parsed URL: origin (scheme plus host), path and
the search-parameter list. -/
structure UrlParts where
  origin : String
  path : String
  query : List (String × String)
deriving DecidableEq, Repr

/-- String prefix test over the character lists (the behaviour of
String.prototype-style startsWith). -/
def strStartsWith (s pre : String) : Bool :=
  s.data.take pre.data.length = pre.data

/-- Whether the composed URL already carries a scheme (the shapes this
library composes: http or https). -/
def isAbsoluteUrl (s : String) : Bool :=
  strStartsWith s "http://" || strStartsWith s "https://"

/-- Split a character list at every occurrence of the separator
(String.split semantics: n separators give n+1 segments). -/
def splitCharsAux (sep : Char) : List Char → List Char → List (List Char)
  | [], acc => [acc.reverse]
  | c :: rest, acc =>
    if c = sep then acc.reverse :: splitCharsAux sep rest []
    else splitCharsAux sep rest (c :: acc)

def splitChars (sep : Char) (l : List Char) : List (List Char) :=
  splitCharsAux sep l []

/-- Cut a character list at the first occurrence of the separator,
returning the prefix and, when the separator occurs, the remainder. -/
def breakAtFirst (sep : Char) : List Char → List Char × Option (List Char)
  | [] => ([], none)
  | c :: rest =>
    if c = sep then ([], some rest)
    else
      let r := breakAtFirst sep rest
      (c :: r.1, r.2)

/-- Split a query string into key-value pairs: segments between
ampersands, each cut at the first equals sign (URLSearchParams parsing,
percent-encoding not modelled). -/
def parseQuery (q : List Char) : List (String × String) :=
  (splitChars '&' q).filterMap (fun seg =>
    if seg = [] then none
    else
      let b := breakAtFirst '=' seg
      some (String.mk b.1,
        match b.2 with
        | none => ""
        | some v => String.mk v))

/-- Split the path-and-query part of a URL at the first question mark. -/
def splitPathQuery (pq : List Char) : String × List (String × String) :=
  let b := breakAtFirst '?' pq
  (String.mk b.1,
    match b.2 with
    | none => []
    | some q => parseQuery q)

/-- Shallow embedding of new URL(fullURL, "http://localhost"): an
absolute URL keeps its own origin; anything else resolves against the
localhost base and thereby acquires the origin http://localhost. -/
def parseUrl (s : String) : UrlParts :=
  if isAbsoluteUrl s then
    let scheme := if strStartsWith s "https://" then "https://" else "http://"
    let rest := s.data.drop scheme.data.length
    let host := rest.takeWhile (fun c => c ≠ '/' && c ≠ '?')
    let pq0 := rest.drop host.length
    let pq :=
      if pq0 = [] then ['/']
      else if pq0.head? = some '?' then '/' :: pq0 else pq0
    let sp := splitPathQuery pq
    ⟨scheme ++ String.mk host, sp.1, sp.2⟩
  else
    let pq := if s.data.head? = some '/' then s.data else '/' :: s.data
    let sp := splitPathQuery pq
    ⟨"http://localhost", sp.1, sp.2⟩

/-- URLSearchParams.set: replace the value of the first entry with the
given key, drop any later entries with that key; append when absent. -/
def searchParamsSet : List (String × String) → String → String → List (String × String)
  | [], k, v => [(k, v)]
  | p :: rest, k, v =>
    if p.1 = k then (k, v) :: rest.filter (fun q => q.1 ≠ k)
    else p :: searchParamsSet rest k v

/-- Apply every configured query parameter in order (the Object.entries
loop at src/src/fetcherFactory.ts lines 323-327). -/
def applyQueryParams (u : UrlParts) (qps : List (String × String)) : UrlParts :=
  ⟨u.origin, u.path, qps.foldl (fun q kv => searchParamsSet q kv.1 kv.2) u.query⟩

/-- The serialized search segment of a URL (empty, or a question mark
followed by ampersand-joined pairs). -/
def querySuffix (u : UrlParts) : String :=
  match u.query with
  | [] => ""
  | _ => "?" ++ String.intercalate "&" (u.query.map (fun p => p.1 ++ "=" ++ p.2))

/-- urlObj.toString() on the model. -/
def urlToString (u : UrlParts) : String :=
  u.origin ++ (u.path ++ querySuffix u)

/-- options.baseURL ? baseURL + url : url
(src/src/fetcherFactory.ts lines 316-318). -/
def composedUrl (baseURL : Option String) (url : String) : String :=
  match baseURL with
  | some b => b ++ url
  | none => url

/-- Shallow embedding of the URL resolution in build
(src/src/fetcherFactory.ts lines 315-329): concatenate baseURL and path,
and when query parameters are configured parse against the localhost
base, set each parameter and serialize back. Config parameter values are
already stringified (String(value)). -/
def resolveFullUrl (baseURL : Option String)
    (queryParams : Option (List (String × String))) (url : String) : String :=
  match queryParams with
  | some qps => urlToString (applyQueryParams (parseUrl (composedUrl baseURL url)) qps)
  | none => composedUrl baseURL url

/-! ### fetcherFactory: deduplication registry (build, lines 388-467) -/

/-- State of one built fetcher closure: the pendingRequests map (cache
key to in-flight promise id), a fresh-promise counter, and an
instrumentation counter of how many underlying fetch pipelines were
started (fetchFn invocations when no retries are configured). -/
structure DedupState where
  pending : String → Option Nat
  nextId : Nat
  networkCalls : Nat

/-- What one call through the built fetcher observably does after the
response settles or is joined. -/
structure CallInfo where
  promiseId : Nat
  joined : Bool
  afterResponseRan : Bool
  debugResponseLogged : Bool
  debugCacheHitLogged : Bool
deriving DecidableEq, Repr

/-- Shallow embedding of the per-call dedup section of build
(src/src/fetcherFactory.ts lines 404-467 and 469-484): with dedup
enabled, a pending entry for the cache key is returned directly — the
call returns that same promise and neither the afterResponse hook nor
the post-response debug log runs on its path (only the cache-hit debug
line); otherwise a new fetch pipeline starts, its promise is registered,
and awaiting it runs the afterResponse hook (when configured) and the
post-response debug log (when debug is on). Without dedup every call
starts a fresh pipeline. -/
def fetcherCallStart (dedupe debug hasAfterResponse : Bool) (cacheKey : String)
    (st : DedupState) : DedupState × CallInfo :=
  if dedupe then
    match st.pending cacheKey with
    | some pid =>
      (st, ⟨pid, true, false, false, debug⟩)
    | none =>
      let pid := st.nextId
      (⟨fun k => if k = cacheKey then some pid else st.pending k,
        st.nextId + 1, st.networkCalls + 1⟩,
       ⟨pid, false, hasAfterResponse, debug, false⟩)
  else
    (⟨st.pending, st.nextId + 1, st.networkCalls + 1⟩,
     ⟨st.nextId, false, hasAfterResponse, debug, false⟩)

/-- Whether the shared promise resolved or rejected; the registry cleanup
runs in a finally block, so the transition ignores it. -/
inductive SettleOutcome where
  | resolved
  | rejected
deriving DecidableEq, Repr

/-- Shallow embedding of the finally block of the dedup wrapper
(src/src/fetcherFactory.ts lines 458-460): the entry for the cache key is
deleted when the underlying call settles, whatever the outcome. -/
def fetcherCallSettle (cacheKey : String) (_outcome : SettleOutcome)
    (st : DedupState) : DedupState :=
  ⟨fun k => if k = cacheKey then none else st.pending k, st.nextId, st.networkCalls⟩

/-- n additional calls with the same cache key, all while the entry is
pending (each immediately after the previous, no settle in between). -/
def repeatJoin (dedupe debug hasAfterResponse : Bool) (cacheKey : String) :
    Nat → DedupState → DedupState × List CallInfo
  | 0, st => (st, [])
  | Nat.succ n, st =>
    let step := fetcherCallStart dedupe debug hasAfterResponse cacheKey st
    let rest := repeatJoin dedupe debug hasAfterResponse cacheKey n step.1
    (rest.1, step.2 :: rest.2)

/-! ### Spec-side helper definitions used by the theorem statements -/

/-- Last-assignment-wins lookup in an ordered assignment list (the value
an object literal built from these entries would hold at the key). -/
def lookupLast : List (String × String) → String → Option String
  | [], _ => none
  | kv :: rest, k =>
    match lookupLast rest k with
    | some v => some v
    | none => if kv.1 = k then some kv.2 else none

/-- First-occurrence lookup in a search-parameter list
(URLSearchParams.get). -/
def lookupFirst : List (String × String) → String → Option String
  | [], _ => none
  | p :: rest, k => if p.1 = k then some p.2 else lookupFirst rest k

/-- Forget a file entry's content, keeping name, size and type. -/
def stripContent : FormValue → FormValue
  | .str s => .str s
  | .file n sz t _ => .file n sz t []

/-- An abort-signalling value in the sense of the claim: name
"AbortError", a cause equal to "aborted", or the literal string
"aborted". -/
def signalsAbort (e : JsValue) : Bool :=
  e.hasAbortName || e.hasAbortCause || isAbortedString e

/-- The concrete non-ok response used to exhibit the streaming-generator
bug: a 404 whose JSON body is an ApiErrorResponse-shaped object. -/
def resp404 : Response :=
  ⟨false, 404, .ok (.obj [("errorId", .str "not_found"), ("debugMessage", .str "x")]), true⟩

end CommBS

namespace CommBS

/-! ### Theorems -/

theorem lookupLast_append (a b : List (String × String)) (k : String) :
    lookupLast (a ++ b) k =
      (match lookupLast b k with
       | some v => some v
       | none => lookupLast a k) := by
  induction a with
  | nil =>
    simp only [List.nil_append, lookupLast]
    rcases hb : lookupLast b k with _ | v <;> simp
  | cons kv rest ih =>
    simp only [List.cons_append, lookupLast, List.append_eq]
    rw [ih]
    rcases hb : lookupLast b k with _ | v <;>
      rcases hr : lookupLast rest k with _ | w <;> simp [hb, hr]

theorem applyHeaders_eq (l : List (String × String)) (base : String → Option String)
    (k : String) :
    applyHeaders base l k =
      (match lookupLast l k with
       | some v => some v
       | none => base k) := by
  induction l generalizing base with
  | nil => simp [applyHeaders, lookupLast]
  | cons kv rest ih =>
    simp only [applyHeaders, lookupLast, ih]
    rcases hr : lookupLast rest k with _ | v <;> simp
    by_cases hk : kv.1 = k
    · simp [hk]
    · have hk2 : ¬(k = kv.1) := fun h => hk h.symm
      simp [hk, hk2]

/-- C3. For every thrown value e, the shared error-normalization helper
maps e as follows: an ApiError is returned unchanged; an abort-signalling
value (name "AbortError", a cause equal to "aborted", or the literal
string "aborted") normalizes to ApiError request_aborted with status 499;
any other value normalizes to ApiError fetch_failed with status 500 and
the stringified message as debugMessage. -/
theorem C3_error_normalization (e : JsValue) :
    (∀ a : ApiError, e = .apiErrorVal a → extractApiErrorFromError e = a) ∧
    (e.isApiErrorInstance = false → signalsAbort e = true →
      extractApiErrorFromError e = ⟨"request_aborted", 499, none⟩) ∧
    (e.isApiErrorInstance = false → signalsAbort e = false →
      extractApiErrorFromError e = ⟨"fetch_failed", 500, some e.messageOf⟩) := by
  refine ⟨?_, ?_, ?_⟩
  · rintro a rfl
    rfl
  · intro hinst habort
    cases e <;> simp [JsValue.isApiErrorInstance] at hinst ⊢ <;>
      simp [signalsAbort, JsValue.hasAbortName, JsValue.hasAbortCause,
        isAbortedString] at habort <;>
      simp [extractApiErrorFromError, JsValue.hasAbortName, JsValue.hasAbortCause,
        isAbortedString] <;>
      rcases habort with h | h <;> simp_all
  · intro hinst habort
    cases e <;> simp [JsValue.isApiErrorInstance] at hinst ⊢ <;>
      simp [signalsAbort, JsValue.hasAbortName, JsValue.hasAbortCause,
        isAbortedString] at habort <;>
      simp [extractApiErrorFromError, JsValue.hasAbortName, JsValue.hasAbortCause,
        isAbortedString, habort]

/-- Witness for C3: the three cases applied at concrete thrown values —
an ApiError instance, a DOMException-like object named AbortError, and a
plain Error. -/
theorem C3_error_normalization_witness :
    ((JsValue.objVal (some "AbortError") none).isApiErrorInstance = false ∧
      signalsAbort (JsValue.objVal (some "AbortError") none) = true ∧
      extractApiErrorFromError (.objVal (some "AbortError") none) =
        ⟨"request_aborted", 499, none⟩) ∧
    (extractApiErrorFromError (.apiErrorVal ⟨"not_found", 404, none⟩) =
        ⟨"not_found", 404, none⟩) ∧
    (extractApiErrorFromError (.errorVal "TypeError" none "boom") =
        ⟨"fetch_failed", 500, some "boom"⟩) :=
  ⟨⟨rfl, rfl, (C3_error_normalization (.objVal (some "AbortError") none)).2.1 rfl rfl⟩,
   (C3_error_normalization (.apiErrorVal ⟨"not_found", 404, none⟩)).1 _ rfl,
   (C3_error_normalization (.errorVal "TypeError" none "boom")).2.2 rfl rfl⟩

theorem insertionSort_perm_eq (a b : List String) (h : a.Perm b) :
    List.insertionSort (fun x y => x ≤ y) a = List.insertionSort (fun x y => x ≤ y) b := by
  have hs1 := List.sorted_insertionSort (fun x y : String => x ≤ y) a
  have hs2 := List.sorted_insertionSort (fun x y : String => x ≤ y) b
  have hp : (List.insertionSort (fun x y : String => x ≤ y) a).Perm
      (List.insertionSort (fun x y : String => x ≤ y) b) :=
    ((List.perm_insertionSort _ a).trans h).trans (List.perm_insertionSort _ b).symm
  exact List.eq_of_perm_of_sorted hp hs1 hs2

/-- C10. hashString is a deterministic pure function; hashFormData is
insertion-order independent (permutations of the entry list hash
identically, so their deduplication fingerprints coincide); and for file
entries only name, size and type — not content — contribute to the
hash. -/
theorem C10_hash_properties :
    (∀ s t : List Nat, s = t → hashString s = hashString t) ∧
    (∀ l1 l2 : List (String × FormValue), l1.Perm l2 →
      hashFormData l1 = hashFormData l2) ∧
    (∀ l1 l2 : List (String × FormValue),
      l1.map (fun p => (p.1, stripContent p.2)) = l2.map (fun p => (p.1, stripContent p.2)) →
      hashFormData l1 = hashFormData l2) := by
  have hser : ∀ p : String × FormValue,
      serializeEntry (p.1, stripContent p.2) = serializeEntry p := by
    rintro ⟨k, v⟩
    cases v <;> rfl
  refine ⟨fun s t h => by rw [h], ?_, ?_⟩
  · intro l1 l2 h
    unfold hashFormData
    rw [insertionSort_perm_eq _ _ (h.map serializeEntry)]
  · intro l1 l2 h
    unfold hashFormData
    have hmap : l1.map serializeEntry = l2.map serializeEntry := by
      calc l1.map serializeEntry
          = (l1.map (fun p => (p.1, stripContent p.2))).map serializeEntry := by
            rw [List.map_map]
            exact (List.map_congr_left (fun p _ => (hser p).symm))
        _ = (l2.map (fun p => (p.1, stripContent p.2))).map serializeEntry := by rw [h]
        _ = l2.map serializeEntry := by
            rw [List.map_map]
            exact (List.map_congr_left (fun p _ => hser p))
    rw [hmap]

/-- Witness for C10: the permutation and content-independence clauses
applied to concrete two-entry FormData values (swapped order; a file
entry whose bytes differ). -/
theorem C10_hash_properties_witness :
    (([("a", FormValue.str "1"), ("b", FormValue.file "f.txt" 3 "text/plain" [1, 2, 3])] :
        List (String × FormValue)).Perm
      [("b", FormValue.file "f.txt" 3 "text/plain" [1, 2, 3]), ("a", FormValue.str "1")] ∧
     hashFormData [("a", FormValue.str "1"), ("b", FormValue.file "f.txt" 3 "text/plain" [1, 2, 3])] =
       hashFormData [("b", FormValue.file "f.txt" 3 "text/plain" [1, 2, 3]), ("a", FormValue.str "1")]) ∧
    hashFormData [("b", FormValue.file "f.txt" 3 "text/plain" [1, 2, 3])] =
      hashFormData [("b", FormValue.file "f.txt" 3 "text/plain" [9, 9, 9])] :=
  ⟨⟨by decide,
    C10_hash_properties.2.1 _ _ (by decide)⟩,
   C10_hash_properties.2.2
     [("b", FormValue.file "f.txt" 3 "text/plain" [1, 2, 3])]
     [("b", FormValue.file "f.txt" 3 "text/plain" [9, 9, 9])] (by decide)⟩

/-- C4. The streaming generators throw on error paths (non-ok initial
response, absent body, mid-sequence failure) and the sequence terminates
there; but the thrown value is NOT the normalized ApiError itself: the
async helpers are invoked without await, so the generator rejects with a
Promise object (which itself resolves to a generic fetch_failed ApiError
whose debugMessage is the stringified promise, losing the body-derived
error). Evaluated at the failing input: a 404 response with JSON body
containing errorId not_found. -/
theorem C4_generator_throws_promise :
    apiFetchTextMany (.resp resp404) [] =
      .throws (.promiseOf ⟨"fetch_failed", 500, some "[object Promise]"⟩) ∧
    (∀ e : ApiError, apiFetchTextMany (.resp resp404) [] ≠ .throws (.apiErr e)) ∧
    extractApiError resp404 = ⟨"not_found", 404, some "x"⟩ := by
  refine ⟨rfl, ?_, rfl⟩
  intro e h
  rw [show apiFetchTextMany (.resp resp404) [] =
      .throws (.promiseOf ⟨"fetch_failed", 500, some "[object Promise]"⟩) from rfl] at h
  simp at h

/-- C6. For every fetchOne (apiFetch) call whose response is ok and whose
options supply a schema: on validation failure the result is ApiError
schema_validation_failed with status 500 and a debugMessage containing
the validator's failure message; on success the validated value is
returned directly. -/
theorem C6_schema_validation (r : Response) (sch : Schema) (data : Json)
    (hok : r.ok = true) (hbody : r.jsonBody = .ok data) :
    (∀ msg, sch data = .error msg →
      apiFetch (.resp r) (some sch) =
        .error ⟨"schema_validation_failed", 500,
          some ("Response validation failed: " ++ msg)⟩ ∧
      ∃ pre, "Response validation failed: " ++ msg = pre ++ msg) ∧
    (∀ v, sch data = .ok v → apiFetch (.resp r) (some sch) = .ok v) := by
  constructor
  · intro msg hmsg
    refine ⟨?_, "Response validation failed: ", rfl⟩
    simp [apiFetch, hok, hbody, hmsg]
  · intro v hv
    simp [apiFetch, hok, hbody, hv]

/-- Witness for C6: the spec scenario — a 200 response with body
containing fullName instead of name, against a schema requiring the name
field; and the same schema accepting a conforming body. -/
theorem C6_schema_validation_witness :
    (Response.mk true 200
        (.ok (.obj [("id", .num 1), ("fullName", .str "x")])) true).ok = true ∧
    (Response.mk true 200
        (.ok (.obj [("id", .num 1), ("fullName", .str "x")])) true).jsonBody =
      .ok (.obj [("id", .num 1), ("fullName", .str "x")]) ∧
    apiFetch
      (.resp (Response.mk true 200
        (.ok (.obj [("id", .num 1), ("fullName", .str "x")])) true))
      (some (fun j =>
        match getField (match j with | .obj f => f | _ => []) "name" with
        | some (.str _) => .ok j
        | _ => .error "Required")) =
      .error ⟨"schema_validation_failed", 500,
        some ("Response validation failed: " ++ "Required")⟩ :=
  ⟨rfl, rfl,
    ((C6_schema_validation
      (Response.mk true 200
        (.ok (.obj [("id", .num 1), ("fullName", .str "x")])) true)
      (fun j =>
        match getField (match j with | .obj f => f | _ => []) "name" with
        | some (.str _) => .ok j
        | _ => .error "Required")
      (.obj [("id", .num 1), ("fullName", .str "x")]) rfl rfl).1 "Required" rfl).1⟩

/-- C7. For every fetchOne (apiFetch) call whose response is not ok: the
result is the ApiError extracted from the body; when the JSON body is an
object with an errorId string the result carries that errorId, the
response status, and a present debugMessage string verbatim; on a
json() rejection, or when the errorId field is absent, the result falls
back to errorId unexpected_error with the response's HTTP status. -/
theorem C7_error_body (r : Response) (schema : Option Schema) (hok : r.ok = false) :
    (apiFetch (.resp r) schema = .error (extractApiError r)) ∧
    (∀ fields eid, r.jsonBody = .ok (.obj fields) →
      getField fields "errorId" = some (.str eid) →
      ((∀ dm, getField fields "debugMessage" = some (.str dm) →
          extractApiError r = ⟨eid, r.status, some dm⟩) ∧
       (getField fields "debugMessage" = none →
          (extractApiError r).errorId = eid ∧
          (extractApiError r).status = r.status))) ∧
    (∀ e, r.jsonBody = .error e →
      extractApiError r = ⟨"unexpected_error", r.status, none⟩) ∧
    (∀ fields, r.jsonBody = .ok (.obj fields) →
      getField fields "errorId" = none →
      (extractApiError r).errorId = "unexpected_error" ∧
      (extractApiError r).status = r.status) := by
  refine ⟨by simp [apiFetch, hok], ?_, ?_, ?_⟩
  · intro fields eid hbody heid
    constructor
    · intro dm hdm
      simp [extractApiError, hbody, parseApiErrorResponse, heid, hdm, Option.getD]
    · intro hdm
      simp [extractApiError, hbody, parseApiErrorResponse, heid, hdm, Option.getD]
  · intro e hbody
    simp [extractApiError, hbody]
  · intro fields hbody heid
    rcases hdm : getField fields "debugMessage" with _ | j
    · simp [extractApiError, hbody, parseApiErrorResponse, heid, hdm]
    · cases j <;> simp [extractApiError, hbody, parseApiErrorResponse, heid, hdm]

/-- Witness for C7: the spec scenario — a 404 response with JSON body
holding errorId not_found and debugMessage x yields exactly that
ApiError; plus the fallback on a body whose JSON parsing rejected. -/
theorem C7_error_body_witness :
    resp404.ok = false ∧
    apiFetch (.resp resp404) none = .error (extractApiError resp404) ∧
    extractApiError resp404 = ⟨"not_found", 404, some "x"⟩ ∧
    extractApiError ⟨false, 500, .error (.errorVal "SyntaxError" none "bad json"), true⟩ =
      ⟨"unexpected_error", 500, none⟩ :=
  ⟨rfl,
   (C7_error_body resp404 none rfl).1,
   ((C7_error_body resp404 none rfl).2.1
      [("errorId", .str "not_found"), ("debugMessage", .str "x")]
      "not_found" rfl rfl).1 "x" rfl,
   (C7_error_body ⟨false, 500, .error (.errorVal "SyntaxError" none "bad json"), true⟩
      none rfl).2.2.1 _ rfl⟩

/-- C5 counterexample. The claim asserts that a call-level Authorization
header overrides a builder-level Authorization produced by setAuth; in
the source the auth assignment happens AFTER the header spreads, so the
setAuth value wins: with bearer auth configured and the caller passing
Authorization call-value, the sent header is the Bearer token. -/
theorem C5_counterexample :
    buildHeaders [] [("Authorization", "call-value")]
        (some ⟨.bearer, some "builder-token", none, none⟩) false "Authorization" =
      some "Bearer builder-token" ∧
    buildHeaders [] [("Authorization", "call-value")]
        (some ⟨.bearer, some "builder-token", none, none⟩) false "Authorization" ≠
      some "call-value" := by
  constructor
  · rfl
  · intro h
    rw [show buildHeaders [] [("Authorization", "call-value")]
        (some ⟨.bearer, some "builder-token", none, none⟩) false "Authorization" =
      some "Bearer builder-token" from rfl] at h
    simp at h

/-- C5 (amended). Header precedence default < builder < call holds for
every key except that an effective setAuth configuration (bearer with a
token, or basic with username and password) assigns Authorization after
the merge and therefore overrides even a call-level Authorization header
(and a FormData body removes Content-Type after everything else). -/
theorem C5_header_precedence (config call : List (String × String))
    (auth : Option AuthConfig) (fd : Bool) (k : String) :
    (∀ v, lookupLast call k = some v →
      (k = "Authorization" → authEffective auth = false) →
      (fd = true → k ≠ "Content-Type") →
      buildHeaders config call auth fd k = some v) ∧
    (lookupLast call k = none → ∀ v, lookupLast config k = some v →
      (k = "Authorization" → authEffective auth = false) →
      (fd = true → k ≠ "Content-Type") →
      buildHeaders config call auth fd k = some v) ∧
    (lookupLast call "Content-Type" = none →
      lookupLast config "Content-Type" = none → fd = false →
      buildHeaders config call auth fd "Content-Type" = some "application/json") ∧
    (authEffective auth = true →
      buildHeaders config call auth fd "Authorization" = authHeaderValue auth) := by
  have happly : ∀ q, applyHeaders
      (fun x => if x = "Content-Type" then some "application/json" else none)
      (config ++ call) q =
      (match lookupLast (config ++ call) q with
       | some v => some v
       | none => if q = "Content-Type" then some "application/json" else none) :=
    fun q => applyHeaders_eq (config ++ call) _ q
  refine ⟨?_, ?_, ?_, ?_⟩
  · intro v hv hauth hfd
    have hcat : lookupLast (config ++ call) k = some v := by
      rw [lookupLast_append, hv]
    simp only [buildHeaders, happly, hcat]
    rcases auth with _ | ⟨t, tok, u, p⟩
    · cases fd <;> simp_all
    · cases t <;> cases tok <;> cases u <;> cases p <;>
        simp [authEffective, setHeader] at hauth ⊢ <;>
        cases fd <;> simp_all [setHeader]
  · intro hnone v hv hauth hfd
    have hcat : lookupLast (config ++ call) k = some v := by
      rw [lookupLast_append, hnone, hv]
    simp only [buildHeaders, happly, hcat]
    rcases auth with _ | ⟨t, tok, u, p⟩
    · cases fd <;> simp_all
    · cases t <;> cases tok <;> cases u <;> cases p <;>
        simp [authEffective, setHeader] at hauth ⊢ <;>
        cases fd <;> simp_all [setHeader]
  · intro hc1 hc2 hfd
    have hcat : lookupLast (config ++ call) "Content-Type" = none := by
      rw [lookupLast_append, hc1, hc2]
    subst hfd
    simp only [buildHeaders]
    rcases auth with _ | ⟨t, tok, u, p⟩
    · simp [happly, hcat]
    · cases t <;> cases tok <;> cases u <;> cases p <;>
        simp [setHeader, happly, hcat]
  · intro heff
    simp only [buildHeaders, happly]
    rcases auth with _ | ⟨t, tok, u, p⟩
    · simp [authEffective] at heff
    · cases t <;> cases tok <;> cases u <;> cases p <;>
        simp [authEffective] at heff <;>
        cases fd <;> simp [setHeader, authHeaderValue]

/-- Witness for C5 (amended): a call-level value beats a builder value
for an ordinary key, while bearer auth claims the Authorization header. -/
theorem C5_header_precedence_witness :
    lookupLast [("X-A", "2")] "X-A" = some "2" ∧
    buildHeaders [("X-A", "1")] [("X-A", "2")]
        (some ⟨.bearer, some "tok", none, none⟩) false "X-A" = some "2" ∧
    authEffective (some ⟨AuthKind.bearer, some "tok", none, none⟩) = true ∧
    buildHeaders [("X-A", "1")] [("X-A", "2")]
        (some ⟨.bearer, some "tok", none, none⟩) false "Authorization" =
      some "Bearer tok" :=
  ⟨rfl,
   (C5_header_precedence [("X-A", "1")] [("X-A", "2")]
      (some ⟨.bearer, some "tok", none, none⟩) false "X-A").1 "2" rfl
      (fun h => by simp at h) (fun h => by simp at h),
   rfl,
   by
    have h4 := (C5_header_precedence [("X-A", "1")] [("X-A", "2")]
      (some ⟨.bearer, some "tok", none, none⟩) false "Authorization").2.2.2 rfl
    rw [h4]
    rfl⟩

theorem lookupFirst_set_same (q : List (String × String)) (k v : String) :
    lookupFirst (searchParamsSet q k v) k = some v := by
  induction q with
  | nil => simp [searchParamsSet, lookupFirst]
  | cons p rest ih =>
    by_cases hp : p.1 = k
    · simp [searchParamsSet, hp, lookupFirst]
    · simp only [searchParamsSet, if_neg hp, lookupFirst, hp, if_false]
      exact ih

theorem lookupFirst_filter_other (rest : List (String × String)) (k k2 : String)
    (hne : k ≠ k2) :
    lookupFirst (rest.filter (fun q => q.1 ≠ k2)) k = lookupFirst rest k := by
  induction rest with
  | nil => simp [lookupFirst]
  | cons p tail ih =>
    simp only [ne_eq, decide_not] at ih ⊢
    by_cases hp2 : p.1 = k2
    · have hk2k : ¬(k2 = k) := fun h => hne h.symm
      simp [List.filter_cons, hp2, lookupFirst, hk2k, ih]
    · by_cases hpk : p.1 = k
      · simp [List.filter_cons, hp2, lookupFirst, hpk, hne]
      · simp [List.filter_cons, hp2, lookupFirst, hpk, hne, ih]

theorem lookupFirst_set_other (q : List (String × String)) (k k2 v : String)
    (hne : k ≠ k2) :
    lookupFirst (searchParamsSet q k2 v) k = lookupFirst q k := by
  induction q with
  | nil =>
    have hk2 : ¬(k2 = k) := fun h => hne h.symm
    simp [searchParamsSet, lookupFirst, hk2]
  | cons p rest ih =>
    by_cases hp : p.1 = k2
    · have hk2 : ¬(k2 = k) := fun h => hne h.symm
      have hpk : ¬(p.1 = k) := fun h => hne (hp ▸ h ▸ rfl)
      simp only [searchParamsSet, if_pos hp, lookupFirst, hk2, if_false, hpk]
      exact lookupFirst_filter_other rest k k2 hne
    · simp only [searchParamsSet, if_neg hp, lookupFirst]
      by_cases hpk : p.1 = k
      · simp [hpk]
      · simp [hpk, ih]

theorem lookupFirst_fold_other (qps : List (String × String))
    (q : List (String × String)) (k : String)
    (h : ∀ p ∈ qps, p.1 ≠ k) :
    lookupFirst (qps.foldl (fun acc kv => searchParamsSet acc kv.1 kv.2) q) k =
      lookupFirst q k := by
  induction qps generalizing q with
  | nil => rfl
  | cons p rest ih =>
    simp only [List.foldl_cons]
    rw [ih _ (fun x hx => h x (List.mem_cons_of_mem p hx)),
      lookupFirst_set_other _ k p.1 p.2 (fun he => h p (List.mem_cons_self p rest) he.symm)]

theorem lookupFirst_fold_mem (qps : List (String × String))
    (q : List (String × String))
    (hnd : (qps.map Prod.fst).Nodup) :
    ∀ p ∈ qps,
      lookupFirst (qps.foldl (fun acc kv => searchParamsSet acc kv.1 kv.2) q) p.1 =
        some p.2 := by
  induction qps generalizing q with
  | nil => intro p hp; cases hp
  | cons hd rest ih =>
    intro p hp
    simp only [List.map_cons, List.nodup_cons] at hnd
    rcases List.mem_cons.mp hp with rfl | hmem
    · simp only [List.foldl_cons]
      rw [lookupFirst_fold_other rest _ p.1
        (fun x hx he => hnd.1 (he ▸ List.mem_map_of_mem Prod.fst hx))]
      exact lookupFirst_set_same q p.1 p.2
    · simp only [List.foldl_cons]
      exact ih _ hnd.2 p hmem

/-- C9. With at least one configured query parameter the request URL is
the serialization of the composed URL parsed against the base
http://localhost with each config parameter set: a non-absolute composed
URL acquires the origin http://localhost; query parameters already in
the call-supplied path survive unless a config parameter bears the same
key, in which case the config value overwrites the path's value. -/
theorem C9_url_resolution (base : Option String) (qps : List (String × String))
    (url : String) (hne : qps ≠ []) :
    resolveFullUrl base (some qps) url =
      urlToString (applyQueryParams (parseUrl (composedUrl base url)) qps) ∧
    (isAbsoluteUrl (composedUrl base url) = false →
      ∃ rest, resolveFullUrl base (some qps) url = "http://localhost" ++ rest) ∧
    (∀ k, (∀ p ∈ qps, p.1 ≠ k) →
      lookupFirst (applyQueryParams (parseUrl (composedUrl base url)) qps).query k =
        lookupFirst (parseUrl (composedUrl base url)).query k) ∧
    ((qps.map Prod.fst).Nodup → ∀ p ∈ qps,
      lookupFirst (applyQueryParams (parseUrl (composedUrl base url)) qps).query p.1 =
        some p.2) := by
  refine ⟨rfl, ?_, ?_, ?_⟩
  · intro habs
    have horigin :
        (applyQueryParams (parseUrl (composedUrl base url)) qps).origin =
          "http://localhost" := by
      show (parseUrl (composedUrl base url)).origin = "http://localhost"
      unfold parseUrl
      rw [habs]
      simp
    refine ⟨(applyQueryParams (parseUrl (composedUrl base url)) qps).path ++
      querySuffix (applyQueryParams (parseUrl (composedUrl base url)) qps), ?_⟩
    show urlToString _ = _
    unfold urlToString
    rw [horigin]
  · intro k hk
    exact lookupFirst_fold_other qps (parseUrl (composedUrl base url)).query k hk
  · intro hnd p hp
    exact lookupFirst_fold_mem qps (parseUrl (composedUrl base url)).query hnd p hp

/-- Witness for C9: a relative path carrying its own query string,
resolved with the config parameter api_version=v1 — the path page=2
survives, the path api_version=v0 is overwritten, and the fetched URL
sits on the localhost origin. -/
theorem C9_url_resolution_witness :
    (([("api_version", "v1")] : List (String × String)) ≠ []) ∧
    isAbsoluteUrl (composedUrl none "/users?page=2&api_version=v0") = false ∧
    (∃ rest, resolveFullUrl none (some [("api_version", "v1")])
        "/users?page=2&api_version=v0" = "http://localhost" ++ rest) ∧
    lookupFirst (applyQueryParams
        (parseUrl (composedUrl none "/users?page=2&api_version=v0"))
        [("api_version", "v1")]).query "page" =
      lookupFirst (parseUrl (composedUrl none "/users?page=2&api_version=v0")).query
        "page" ∧
    lookupFirst (applyQueryParams
        (parseUrl (composedUrl none "/users?page=2&api_version=v0"))
        [("api_version", "v1")]).query "api_version" = some "v1" ∧
    resolveFullUrl none (some [("api_version", "v1")]) "/users?page=2&api_version=v0" =
      "http://localhost/users?page=2&api_version=v1" :=
  ⟨by simp, rfl,
   (C9_url_resolution none [("api_version", "v1")] "/users?page=2&api_version=v0"
      (by simp)).2.1 rfl,
   (C9_url_resolution none [("api_version", "v1")] "/users?page=2&api_version=v0"
      (by simp)).2.2.1 "page" (by decide),
   (C9_url_resolution none [("api_version", "v1")] "/users?page=2&api_version=v0"
      (by simp)).2.2.2 (by decide) ("api_version", "v1") (by decide),
   by decide⟩

theorem executeWithRetry_spec (cfg : RetryConfig) (outcomes : Nat → Outcome)
    (idx r p : Nat)
    (hw : ∀ k, k < p → retryWorthy cfg (outcomes (idx + k)) = true)
    (hs : retryWorthy cfg (outcomes (idx + p)) = false) :
    executeWithRetry cfg outcomes idx r =
      ⟨outcomes (idx + min p r), min p r + 1,
        List.replicate (min p r) (effectiveDelay cfg)⟩ := by
  induction r generalizing idx p with
  | zero => simp [executeWithRetry]
  | succ r ih =>
    cases p with
    | zero =>
      simp only [Nat.add_zero] at hs
      simp only [Nat.zero_min, Nat.zero_add, List.replicate_zero]
      rcases ho : outcomes idx with ⟨status, tag⟩ | ⟨tag⟩
      · rw [ho] at hs
        simp only [retryWorthy] at hs
        simp [executeWithRetry, ho, hs]
      · rw [ho] at hs
        simp [retryWorthy] at hs
    | succ q =>
      have h0 : retryWorthy cfg (outcomes idx) = true := by
        have := hw 0 (Nat.succ_pos q)
        simpa using this
      have hw2 : ∀ k, k < q → retryWorthy cfg (outcomes (idx + 1 + k)) = true := by
        intro k hk
        have := hw (k + 1) (Nat.succ_lt_succ hk)
        rw [show idx + (k + 1) = idx + 1 + k by omega] at this
        exact this
      have hs2 : retryWorthy cfg (outcomes (idx + 1 + q)) = false := by
        rw [show idx + 1 + q = idx + (q + 1) by omega]
        exact hs
      have hrec := ih (idx + 1) q hw2 hs2
      have hmin : min (q + 1) (r + 1) = min q r + 1 := Nat.succ_min_succ q r
      rcases ho : outcomes idx with ⟨status, tag⟩ | ⟨tag⟩
      · rw [ho] at h0
        simp only [retryWorthy] at h0
        simp only [executeWithRetry, ho, h0, if_true, hrec, hmin, List.replicate_succ]
        rw [show idx + 1 + min q r = idx + (min q r + 1) by omega]
      · simp only [executeWithRetry, ho, hrec, hmin, List.replicate_succ]
        rw [show idx + 1 + min q r = idx + (min q r + 1) by omega]

theorem executeWithRetry_all (cfg : RetryConfig) (outcomes : Nat → Outcome)
    (idx r : Nat)
    (hw : ∀ k, k < r → retryWorthy cfg (outcomes (idx + k)) = true) :
    executeWithRetry cfg outcomes idx r =
      ⟨outcomes (idx + r), r + 1, List.replicate r (effectiveDelay cfg)⟩ := by
  induction r generalizing idx with
  | zero => simp [executeWithRetry]
  | succ q ih =>
    have h0 : retryWorthy cfg (outcomes idx) = true := by
      have := hw 0 (Nat.succ_pos q)
      simpa using this
    have hw2 : ∀ k, k < q → retryWorthy cfg (outcomes (idx + 1 + k)) = true := by
      intro k hk
      have := hw (k + 1) (Nat.succ_lt_succ hk)
      rw [show idx + (k + 1) = idx + 1 + k by omega] at this
      exact this
    have hrec := ih (idx + 1) hw2
    rcases ho : outcomes idx with ⟨status, tag⟩ | ⟨tag⟩
    · rw [ho] at h0
      simp only [retryWorthy] at h0
      simp only [executeWithRetry, ho, h0, if_true, hrec, List.replicate_succ]
      rw [show idx + 1 + q = idx + (q + 1) by omega]
    · simp only [executeWithRetry, ho, hrec, List.replicate_succ]
      rw [show idx + 1 + q = idx + (q + 1) by omega]

/-- C1 (amended). For every configured retry policy and outcome stream:
an attempt is retried exactly when it rejected, or resolved with a
status listed in retryOn (never a resolved response when retryOn is
unset, even 5xx); the pipeline makes exactly min(p, retries) + 1 fetch
invocations, where p is the count of leading retry-worthy outcomes
(retries + 1 invocations when every outcome within the budget is
retry-worthy), separated by equal delays of retryDelay — except that a
zero (or unset) retryDelay falls back to 1000 — and the last settled
outcome is returned (even non-ok) or rethrown. -/
theorem C1_retry_policy (cfg : RetryConfig) (outcomes : Nat → Outcome) :
    (∀ p, (∀ k, k < p → retryWorthy cfg (outcomes k) = true) →
      retryWorthy cfg (outcomes p) = false →
      (runFetchAttempts cfg outcomes).calls = min p cfg.retries + 1 ∧
      (runFetchAttempts cfg outcomes).result = outcomes (min p cfg.retries) ∧
      (runFetchAttempts cfg outcomes).delays =
        List.replicate (min p cfg.retries) (effectiveDelay cfg)) ∧
    ((∀ k, k < cfg.retries → retryWorthy cfg (outcomes k) = true) →
      (runFetchAttempts cfg outcomes).calls = cfg.retries + 1 ∧
      (runFetchAttempts cfg outcomes).result = outcomes cfg.retries ∧
      (runFetchAttempts cfg outcomes).delays =
        List.replicate cfg.retries (effectiveDelay cfg)) ∧
    (cfg.retryDelay ≠ 0 → effectiveDelay cfg = cfg.retryDelay) ∧
    (cfg.retryOn = none → ∀ s t, retryWorthy cfg (.resolve s t) = false) ∧
    (∀ o, retryWorthy cfg o = true ↔
      ((∃ t, o = .reject t) ∨
       (∃ l s t, cfg.retryOn = some l ∧ o = .resolve s t ∧ s ∈ l))) := by
  refine ⟨?_, ?_, ?_, ?_, ?_⟩
  · intro p hw hs
    have hmain : runFetchAttempts cfg outcomes =
        ⟨outcomes (min p cfg.retries), min p cfg.retries + 1,
          List.replicate (min p cfg.retries) (effectiveDelay cfg)⟩ := by
      unfold runFetchAttempts
      by_cases h0 : cfg.retries = 0
      · simp [h0]
      · rw [if_neg h0]
        have hx := executeWithRetry_spec cfg outcomes 0 cfg.retries p
          (by simpa using hw) (by simpa using hs)
        simpa using hx
    exact ⟨by rw [hmain], by rw [hmain], by rw [hmain]⟩
  · intro hw
    have hmain : runFetchAttempts cfg outcomes =
        ⟨outcomes cfg.retries, cfg.retries + 1,
          List.replicate cfg.retries (effectiveDelay cfg)⟩ := by
      unfold runFetchAttempts
      by_cases h0 : cfg.retries = 0
      · simp [h0]
      · rw [if_neg h0]
        have hx := executeWithRetry_all cfg outcomes 0 cfg.retries
          (by simpa using hw)
        simpa using hx
    exact ⟨by rw [hmain], by rw [hmain], by rw [hmain]⟩
  · intro hd
    unfold effectiveDelay
    rw [if_neg hd]
  · intro hnone s t
    simp [retryWorthy, retryOnMatches, hnone]
  · intro o
    rcases o with ⟨s, t⟩ | ⟨t⟩
    · simp only [retryWorthy, retryOnMatches]
      rcases hro : cfg.retryOn with _ | l
      · simp
      · simp only [List.contains]
        constructor
        · intro hmem
          exact Or.inr ⟨l, s, t, rfl, rfl, by simpa using hmem⟩
        · rintro (⟨t2, ht⟩ | ⟨l2, s2, t2, hl, ho, hm⟩)
          · cases ht
          · cases hl
            cases ho
            simpa using hm
    · simp [retryWorthy]

/-- C1 counterexample. The claim promises a fixed delay of delayMs
between attempts for EVERY configured policy; with retryDelay configured
as 0 the source waits retryDelay || 1000 = 1000 milliseconds instead. -/
theorem C1_zero_delay_counterexample :
    (runFetchAttempts ⟨1, 0, some [500]⟩
      (fun k => if k = 0 then Outcome.resolve 500 0 else Outcome.resolve 200 1)).calls = 2 ∧
    (runFetchAttempts ⟨1, 0, some [500]⟩
      (fun k => if k = 0 then Outcome.resolve 500 0 else Outcome.resolve 200 1)).delays = [1000] ∧
    (runFetchAttempts ⟨1, 0, some [500]⟩
      (fun k => if k = 0 then Outcome.resolve 500 0 else Outcome.resolve 200 1)).delays ≠ [0] := by
  refine ⟨rfl, rfl, ?_⟩
  intro hcontra
  rw [show (runFetchAttempts ⟨1, 0, some [500]⟩
      (fun k => if k = 0 then Outcome.resolve 500 0 else Outcome.resolve 200 1)).delays =
    [1000] from rfl] at hcontra
  simp at hcontra

/-- Witness for C1: retries configured as 2 with delay 7 on status 503;
the first attempt resolves 503 (retried), the second resolves 200 and is
returned after exactly two invocations and one delay of 7; an
always-rejecting stream exhausts all three invocations. -/
theorem C1_retry_policy_witness :
    (∀ k, k < 1 → retryWorthy ⟨2, 7, some [503]⟩
      ((fun j => if j = 0 then Outcome.resolve 503 10 else Outcome.resolve 200 20) k) = true) ∧
    retryWorthy ⟨2, 7, some [503]⟩
      ((fun j => if j = 0 then Outcome.resolve 503 10 else Outcome.resolve 200 20) 1) = false ∧
    (runFetchAttempts ⟨2, 7, some [503]⟩
      (fun j => if j = 0 then Outcome.resolve 503 10 else Outcome.resolve 200 20)).calls = 2 ∧
    (runFetchAttempts ⟨2, 7, some [503]⟩
      (fun j => if j = 0 then Outcome.resolve 503 10 else Outcome.resolve 200 20)).result =
      Outcome.resolve 200 20 ∧
    (runFetchAttempts ⟨2, 7, some [503]⟩
      (fun j => if j = 0 then Outcome.resolve 503 10 else Outcome.resolve 200 20)).delays = [7] ∧
    (runFetchAttempts ⟨2, 7, some [503]⟩ (fun _ => Outcome.reject 0)).calls = 3 :=
  ⟨by decide, by decide,
   ((C1_retry_policy ⟨2, 7, some [503]⟩
     (fun j => if j = 0 then Outcome.resolve 503 10 else Outcome.resolve 200 20)).1 1
     (by decide) (by decide)).1,
   ((C1_retry_policy ⟨2, 7, some [503]⟩
     (fun j => if j = 0 then Outcome.resolve 503 10 else Outcome.resolve 200 20)).1 1
     (by decide) (by decide)).2.1,
   ((C1_retry_policy ⟨2, 7, some [503]⟩
     (fun j => if j = 0 then Outcome.resolve 503 10 else Outcome.resolve 200 20)).1 1
     (by decide) (by decide)).2.2,
   ((C1_retry_policy ⟨2, 7, some [503]⟩ (fun _ => Outcome.reject 0)).2.1
     (by decide)).1⟩

theorem repeatJoin_fixed (dbg aft : Bool) (k : String) (st : DedupState) (pid : Nat)
    (hp : st.pending k = some pid) (n : Nat) :
    repeatJoin true dbg aft k n st =
      (st, List.replicate n ⟨pid, true, false, false, dbg⟩) := by
  induction n with
  | zero => simp [repeatJoin]
  | succ m ih =>
    simp [repeatJoin, fetcherCallStart, hp, ih, List.replicate_succ]

/-- C2. With deduplication enabled: a first call whose fingerprint has no
pending entry starts exactly one network pipeline and registers its
promise; any number of calls with the same fingerprint while that entry
is pending join it — no further network call, every joiner receives the
same promise id and hence observes the identical resolved value; the
entry is removed when the shared call settles, for a resolution and a
rejection alike; and a sequential second call after settlement starts a
second network pipeline with a fresh promise. -/
theorem C2_deduplication (dbg aft : Bool) (k : String) (st : DedupState)
    (h : st.pending k = none) (n : Nat) (o : SettleOutcome) :
    ∀ st1 info1, fetcherCallStart true dbg aft k st = (st1, info1) →
      (st1.networkCalls = st.networkCalls + 1 ∧
       st1.pending k = some info1.promiseId ∧
       info1.joined = false) ∧
      ((repeatJoin true dbg aft k n st1).1 = st1 ∧
       (∀ info ∈ (repeatJoin true dbg aft k n st1).2,
         info.promiseId = info1.promiseId ∧ info.joined = true) ∧
       (repeatJoin true dbg aft k n st1).1.networkCalls = st.networkCalls + 1 ∧
       (∀ value : Nat → Option Response,
         ∀ info ∈ (repeatJoin true dbg aft k n st1).2,
           value info.promiseId = value info1.promiseId)) ∧
      ((fetcherCallSettle k o st1).pending k = none) ∧
      (∀ st3 info3,
        fetcherCallStart true dbg aft k (fetcherCallSettle k o st1) = (st3, info3) →
        st3.networkCalls = st.networkCalls + 2 ∧
        info3.joined = false ∧
        info3.promiseId ≠ info1.promiseId) := by
  have hstart : fetcherCallStart true dbg aft k st =
      (⟨fun q => if q = k then some st.nextId else st.pending q,
        st.nextId + 1, st.networkCalls + 1⟩,
       ⟨st.nextId, false, aft, dbg, false⟩) := by
    simp [fetcherCallStart, h]
  intro st1 info1 heq
  rw [hstart] at heq
  injection heq with heq1 heq2
  subst heq1
  subst heq2
  refine ⟨⟨rfl, by simp, rfl⟩, ?_, by simp [fetcherCallSettle], ?_⟩
  · have hp1 : (DedupState.mk (fun q => if q = k then some st.nextId else st.pending q)
        (st.nextId + 1) (st.networkCalls + 1)).pending k = some st.nextId := by simp
    have hjoin := repeatJoin_fixed dbg aft k _ st.nextId hp1 n
    refine ⟨by rw [hjoin], ?_, by rw [hjoin], ?_⟩
    · intro info hinfo
      rw [hjoin] at hinfo
      simp only [List.mem_replicate] at hinfo
      rw [hinfo.2]
      exact ⟨rfl, rfl⟩
    · intro value info hinfo
      rw [hjoin] at hinfo
      simp only [List.mem_replicate] at hinfo
      rw [hinfo.2]
  · intro st3 info3 heq3
    have hsp : (fetcherCallSettle k o
        (DedupState.mk (fun q => if q = k then some st.nextId else st.pending q)
          (st.nextId + 1) (st.networkCalls + 1))).pending k = none := by
      simp [fetcherCallSettle]
    have hseq : fetcherCallStart true dbg aft k
        (fetcherCallSettle k o
          (DedupState.mk (fun q => if q = k then some st.nextId else st.pending q)
            (st.nextId + 1) (st.networkCalls + 1))) =
        (⟨fun q => if q = k then
            some (fetcherCallSettle k o
              (DedupState.mk (fun q2 => if q2 = k then some st.nextId else st.pending q2)
                (st.nextId + 1) (st.networkCalls + 1))).nextId
          else (fetcherCallSettle k o
              (DedupState.mk (fun q2 => if q2 = k then some st.nextId else st.pending q2)
                (st.nextId + 1) (st.networkCalls + 1))).pending q,
          (fetcherCallSettle k o
            (DedupState.mk (fun q2 => if q2 = k then some st.nextId else st.pending q2)
              (st.nextId + 1) (st.networkCalls + 1))).nextId + 1,
          (fetcherCallSettle k o
            (DedupState.mk (fun q2 => if q2 = k then some st.nextId else st.pending q2)
              (st.nextId + 1) (st.networkCalls + 1))).networkCalls + 1⟩,
         ⟨(fetcherCallSettle k o
            (DedupState.mk (fun q2 => if q2 = k then some st.nextId else st.pending q2)
              (st.nextId + 1) (st.networkCalls + 1))).nextId, false, aft, dbg, false⟩) := by
      simp [fetcherCallStart, hsp]
    rw [hseq] at heq3
    injection heq3 with heq4 heq5
    subst heq4
    subst heq5
    refine ⟨by simp [fetcherCallSettle], rfl, ?_⟩
    simp [fetcherCallSettle]

/-- Witness for C2: an empty registry, the fingerprint of GET /users/1,
three concurrent joiners and a rejected settlement; one network call
while pending, a cleared entry after settlement, two network calls after
a sequential repeat. -/
theorem C2_deduplication_witness :
    (DedupState.mk (fun _ => none) 0 0).pending "GET_/users/1" = none ∧
    (fetcherCallStart true false true "GET_/users/1"
      (DedupState.mk (fun _ => none) 0 0)).1.networkCalls = 1 ∧
    (repeatJoin true false true "GET_/users/1" 3
      (fetcherCallStart true false true "GET_/users/1"
        (DedupState.mk (fun _ => none) 0 0)).1).1.networkCalls = 1 ∧
    (fetcherCallSettle "GET_/users/1" SettleOutcome.rejected
      (fetcherCallStart true false true "GET_/users/1"
        (DedupState.mk (fun _ => none) 0 0)).1).pending "GET_/users/1" = none ∧
    (fetcherCallStart true false true "GET_/users/1"
      (fetcherCallSettle "GET_/users/1" SettleOutcome.rejected
        (fetcherCallStart true false true "GET_/users/1"
          (DedupState.mk (fun _ => none) 0 0)).1)).1.networkCalls = 2 :=
  ⟨rfl,
   (C2_deduplication false true "GET_/users/1" (DedupState.mk (fun _ => none) 0 0)
     rfl 3 SettleOutcome.rejected _ _ rfl).1.1,
   (C2_deduplication false true "GET_/users/1" (DedupState.mk (fun _ => none) 0 0)
     rfl 3 SettleOutcome.rejected _ _ rfl).2.1.2.2.1,
   (C2_deduplication false true "GET_/users/1" (DedupState.mk (fun _ => none) 0 0)
     rfl 3 SettleOutcome.rejected _ _ rfl).2.2.1,
   ((C2_deduplication false true "GET_/users/1" (DedupState.mk (fun _ => none) 0 0)
     rfl 3 SettleOutcome.rejected _ _ rfl).2.2.2 _ _ rfl).1⟩

/-- C8. With deduplication enabled, a call that finds a pending entry for
its fingerprint returns that shared promise directly: the state is
untouched and on its path the afterResponse hook and the post-response
debug log never run (only the cache-hit debug line); both run on the
path of the call that created the entry. -/
theorem C8_join_skips_hooks (dbg aft : Bool) (k : String) (st : DedupState)
    (pid : Nat) (hp : st.pending k = some pid) :
    fetcherCallStart true dbg aft k st = (st, ⟨pid, true, false, false, dbg⟩) ∧
    (fetcherCallStart true dbg aft k st).2.promiseId = pid ∧
    (fetcherCallStart true dbg aft k st).2.afterResponseRan = false ∧
    (fetcherCallStart true dbg aft k st).2.debugResponseLogged = false ∧
    (∀ st2 : DedupState, st2.pending k = none →
      (fetcherCallStart true dbg aft k st2).2.afterResponseRan = aft ∧
      (fetcherCallStart true dbg aft k st2).2.debugResponseLogged = dbg) := by
  have hmain : fetcherCallStart true dbg aft k st = (st, ⟨pid, true, false, false, dbg⟩) := by
    simp [fetcherCallStart, hp]
  refine ⟨hmain, by rw [hmain], by rw [hmain], by rw [hmain], ?_⟩
  intro st2 h2
  constructor <;> simp [fetcherCallStart, h2]

/-- Witness for C8: a registry holding promise 5 for the fingerprint of
GET /users/1; the joining call reports promise 5 with no afterResponse
and no response log, while a fresh-state call runs both. -/
theorem C8_join_skips_hooks_witness :
    (DedupState.mk (fun s => if s = "GET_/users/1" then some 5 else none) 9 1).pending
      "GET_/users/1" = some 5 ∧
    (fetcherCallStart true true true "GET_/users/1"
      (DedupState.mk (fun s => if s = "GET_/users/1" then some 5 else none) 9 1)).2.promiseId = 5 ∧
    (fetcherCallStart true true true "GET_/users/1"
      (DedupState.mk (fun s => if s = "GET_/users/1" then some 5 else none) 9 1)).2.afterResponseRan
      = false ∧
    (fetcherCallStart true true true "GET_/users/1"
      (DedupState.mk (fun s => if s = "GET_/users/1" then some 5 else none) 9 1)).2.debugResponseLogged
      = false ∧
    (fetcherCallStart true true true "GET_/users/1"
      (DedupState.mk (fun _ => none) 9 1)).2.afterResponseRan = true :=
  ⟨rfl,
   (C8_join_skips_hooks true true "GET_/users/1"
     (DedupState.mk (fun s => if s = "GET_/users/1" then some 5 else none) 9 1) 5 rfl).2.1,
   (C8_join_skips_hooks true true "GET_/users/1"
     (DedupState.mk (fun s => if s = "GET_/users/1" then some 5 else none) 9 1) 5 rfl).2.2.1,
   (C8_join_skips_hooks true true "GET_/users/1"
     (DedupState.mk (fun s => if s = "GET_/users/1" then some 5 else none) 9 1) 5 rfl).2.2.2.1,
   ((C8_join_skips_hooks true true "GET_/users/1"
     (DedupState.mk (fun s => if s = "GET_/users/1" then some 5 else none) 9 1) 5 rfl).2.2.2.2
     (DedupState.mk (fun _ => none) 9 1) rfl).1⟩

end CommBS
